import Mathlib

/-!
Shallow embedding of the grouped-property assertion plugin
(src/lib/propertiesAssertion.ts) and proofs about it.

The plugin registers a `.properties` assertion: given a target object and
either an array of property names (presence-only mode) or a mapping from
names to expected values (value-check mode), it classifies each expected
name into found / missing / value-mismatched, builds a descriptor string
and a message, and delegates the pass/fail decision to the host assert
primitive.

JavaScript values are modelled by an inductive `JSValue`; property names by
`PropName` (string, number or symbol). External host utilities (the
has-property predicate, the nested-path resolver, deep equality, the assert
primitive's negation handling) are modelled from their documented contracts;
everything in `hasAllProperties` itself is translated from the source.
-/

namespace HaveAllProps

/-- Property names: strings, numbers or symbols (types.ts PropertyNameType). -/
inductive PropName where
  | str (s : String)
  | num (n : Int)
  | sym (s : String)
deriving DecidableEq, Repr

/-- JavaScript runtime values, as far as the plugin observes them.
Objects are finite lists of name/value fields. -/
inductive JSValue where
  | vNull
  | vUndefined
  | vBool (b : Bool)
  | vNum (n : Int)
  | vStr (s : String)
  | vObj (fields : List (PropName × JSValue))
deriving Repr

/-- The argument to `.properties`: an array of names (presence-only mode)
or a plain record mapping string keys to expected values
(types.ts PropertiesListType). Record keys are the string keys that
Object.keys / Object.entries enumerate. -/
inductive PropertiesList where
  | arr (names : List PropName)
  | record (entries : List (String × JSValue))
deriving Repr

/-- Embedding of isRecord (propertiesAssertion.ts:23-25):
`typeof data === 'object' && 'key' in data`. Both arrays and records have
typeof 'object'; the `'key' in data` test holds only when the value has a
property literally named "key", which an ordinary array never has. -/
def isRecord : PropertiesList → Bool
  | .arr _ => false
  | .record es => es.any (fun e => e.fst = "key")

/-- JavaScript typeof of a property name. -/
inductive NameType where
  | tStr
  | tNum
  | tSym
deriving DecidableEq, Repr

def typeofName : PropName → NameType
  | .str _ => .tStr
  | .num _ => .tNum
  | .sym _ => .tSym

def PropName.isStr : PropName → Bool
  | .str _ => true
  | _ => false

/-- Embedding of getNameTypes (propertiesAssertion.ts:46-55).
`propertyNames = isRecord(properties) ? Object.keys(properties) : properties`
followed by a Set of `typeof name`. When `properties` is a record without a
literal "key" property, isRecord is false, the record itself flows into the
array branch, and `propertyNames.map` throws a TypeError at runtime
(a plain object has no .map); that crash is modelled by `none`. -/
def getNameTypes : PropertiesList → Option (List NameType)
  | .arr ns => some ((ns.map typeofName).dedup)
  | .record es =>
    if isRecord (.record es) then
      some (((es.map (fun e => PropName.str e.fst)).map typeofName).dedup)
    else
      none

/-- Lookup of a field by name in an object's field list. -/
def lookupField : List (PropName × JSValue) → PropName → Option JSValue
  | [], _ => none
  | (k, v) :: rest, n => if k = n then some v else lookupField rest n

/-- Object.prototype.hasOwnProperty.call(obj, propertyName): the target
directly defines this key. Non-objects define no keys in the model. -/
def hasOwnProp (obj : JSValue) (n : PropName) : Bool :=
  match obj with
  | .vObj fs => (lookupField fs n).isSome
  | _ => false

/-- Modelled from the spec: the host's has-property predicate
(own + inherited lookup, §6). Prototype chains are not part of the value
model (every object has an empty prototype chain), so inherited lookup
coincides with own lookup; no claim distinguishes the two. -/
def hasPropertyUtil (obj : JSValue) (n : PropName) : Bool :=
  hasOwnProp obj n

/-- Property read obj[propertyName]; absent or non-object gives undefined. -/
def getProp (obj : JSValue) (n : PropName) : JSValue :=
  match obj with
  | .vObj fs => (lookupField fs n).getD .vUndefined
  | _ => .vUndefined

/-- Modelled from the spec: the host's nested-path resolver (§6) walks a
dot-separated path and reports whether it exists and its value. Bracket
notation and escape sequences are not exercised by any claim and are not
modelled; on a null/undefined target the resolver reports the path as
nonexistent, as the host resolver does. -/
def resolvePath (v : JSValue) : List String → Option JSValue
  | [] => some v
  | s :: rest =>
    match v with
    | .vObj fs =>
      match lookupField fs (.str s) with
      | some v2 => resolvePath v2 rest
      | none => none
    | _ => none

/-- Split a character list at dots, keeping the current segment reversed. -/
def splitSegsAux (cur : List Char) : List Char → List String
  | [] => [String.mk cur.reverse]
  | c :: rest =>
    if c = '.' then String.mk cur.reverse :: splitSegsAux [] rest
    else splitSegsAux (c :: cur) rest

/-- The dot-separated segments of a nested path. -/
def pathSegments (path : String) : List String :=
  splitSegsAux [] path.data

/-- pathInfo.exists for a nested path name. Nested mode validates that all
names are strings before classification; non-string names never reach here. -/
def nestedExists (obj : JSValue) (n : PropName) : Bool :=
  match n with
  | .str s => (resolvePath obj (pathSegments s)).isSome
  | _ => false

/-- pathInfo.value for a nested path name. -/
def nestedValue (obj : JSValue) (n : PropName) : JSValue :=
  match n with
  | .str s => (resolvePath obj (pathSegments s)).getD .vUndefined
  | _ => .vUndefined

/-- JavaScript strict equality (===) as the plugin uses it. Primitives
compare by value; two object literals are distinct references, and the
expected and actual values in an invocation come from distinct literals,
so object-object strict comparison is false in the model. -/
def strictEq : JSValue → JSValue → Bool
  | .vNull, .vNull => true
  | .vUndefined, .vUndefined => true
  | .vBool a, .vBool b => a == b
  | .vNum a, .vNum b => a == b
  | .vStr a, .vStr b => a == b
  | _, _ => false

mutual
/-- Modelled from the spec: the external deep-equality predicate (deep-eql,
§6), modelled as structural equality of the value representation. -/
def deepEqual : JSValue → JSValue → Bool
  | .vNull, .vNull => true
  | .vUndefined, .vUndefined => true
  | .vBool a, .vBool b => a == b
  | .vNum a, .vNum b => a == b
  | .vStr a, .vStr b => a == b
  | .vObj fs, .vObj gs => deepEqualFields fs gs
  | _, _ => false

def deepEqualFields : List (PropName × JSValue) → List (PropName × JSValue) → Bool
  | [], [] => true
  | (k, v) :: r, (k2, v2) :: r2 => k == k2 && deepEqual v v2 && deepEqualFields r r2
  | _, _ => false
end

/-- Flag configuration resolved at entry of hasAllProperties
(propertiesAssertion.ts:175-215): nested, own, deep and negate flags. -/
structure Config where
  isNested : Bool
  isOwn : Bool
  isDeep : Bool
  isNegated : Bool
deriving DecidableEq, Repr

/-- The presence test of addPropertyToAppropriateList
(propertiesAssertion.ts:239-246): own lookup when the own flag is set,
else nested-path existence when nested, else the host has-property
predicate. -/
def hasPropFor (cfg : Config) (obj : JSValue) (n : PropName) : Bool :=
  if cfg.isOwn then hasOwnProp obj n
  else if cfg.isNested then nestedExists obj n
  else hasPropertyUtil obj n

/-- Which of the three lists a single expected name lands in. -/
inductive Classification where
  | cFound
  | cMissing
  | cMismatched (actual : JSValue)
deriving Repr

/-- Embedding of the body of addPropertyToAppropriateList
(propertiesAssertion.ts:236-265) for one name. An omitted expected value
(presence-only iteration) arrives as undefined, exactly as in the source,
where `expectedValue === undefined` short-circuits the value comparison. -/
def classifyOne (cfg : Config) (obj : JSValue) (n : PropName)
    (expectedValue : JSValue) : Classification :=
  if hasPropFor cfg obj n then
    match expectedValue with
    | .vUndefined => .cFound
    | ev =>
      let value := if cfg.isNested then nestedValue obj n else getProp obj n
      if (if cfg.isDeep then deepEqual ev value else strictEq ev value) then
        .cFound
      else
        .cMismatched value
  else
    .cMissing

/-- The three lists built by the classification loop. -/
structure ClassResult where
  found : List PropName
  missing : List PropName
  mismatched : List (PropName × JSValue)
deriving Repr

/-- Record one name's classification in the three lists. -/
def insertClassified (n : PropName) (c : Classification) (r : ClassResult) :
    ClassResult :=
  match c with
  | .cFound => { r with found := n :: r.found }
  | .cMissing => { r with missing := n :: r.missing }
  | .cMismatched a => { r with mismatched := (n, a) :: r.mismatched }

/-- The classification loop (propertiesAssertion.ts:267-277): each entry is
appended to exactly one of the three lists, in iteration order. -/
def classifyAll (cfg : Config) (obj : JSValue) :
    List (PropName × JSValue) → ClassResult
  | [] => ⟨[], [], []⟩
  | (n, v) :: rest =>
    insertClassified n (classifyOne cfg obj n v) (classifyAll cfg obj rest)

/-- The per-entry iteration of the classification loop: record mode walks
Object.entries, presence-only mode walks the array with the expected value
omitted (undefined). -/
def entriesOf : PropertiesList → List (PropName × JSValue)
  | .arr ns => ns.map (fun n => (n, .vUndefined))
  | .record es => es.map (fun e => (PropName.str e.fst, e.snd))

/-- The expected-name collection of an input. -/
def namesOf : PropertiesList → List PropName
  | .arr ns => ns
  | .record es => es.map (fun e => PropName.str e.fst)

/-- The descriptor string (propertiesAssertion.ts:220-230). -/
def descriptorStr (isDeep isOwn isNested doValueCheck : Bool) : String :=
  (if isDeep then "deep " else "")
    ++ (if isOwn then "own " else "")
    ++ (if isNested then "nested " else "")
    ++ (if doValueCheck then "properties/values" else "properties")

/-- Whether the overall assertion passes (propertiesAssertion.ts:279-330).
Non-negated: passes when nothing is missing and nothing mismatched.
Negated: passes when foundProperties is empty; the expression handed to
this.assert is un-negated again by the host's negate handling, so the
invocation passes exactly when assertionPassed is true. -/
def assertionPassedOf (isNegated : Bool) (r : ClassResult) : Bool :=
  if !isNegated then
    r.missing.isEmpty && r.mismatched.isEmpty
  else
    r.found.isEmpty

/-- The validation failures thrown before classification
(propertiesAssertion.ts:185-212). -/
inductive VError where
  | nestedNonString
  | nestedOwnCombined
  | invalidNameType
  | nullTarget
deriving DecidableEq, Repr

/-- Data of an invocation that reached the this.assert call. `chainSubject`
is the value of the chain's 'object' flag after the call; the source never
writes that flag, so it is the original target. -/
structure AssertedResult where
  passed : Bool
  descriptor : String
  found : List PropName
  missing : List PropName
  mismatched : List (PropName × JSValue)
  chainSubject : JSValue
deriving Repr

/-- Outcome of one invocation of hasAllProperties: a runtime TypeError
(crash in getNameTypes on a record lacking a "key" property), a validation
AssertionError, or a completed classification handed to this.assert. -/
inductive Outcome where
  | typeErrorCrash
  | validationError (e : VError)
  | asserted (r : AssertedResult)
deriving Repr

/-- The part of hasAllProperties after validation
(propertiesAssertion.ts:214-331): compute doValueCheck, the descriptor,
the three lists, and the pass/fail decision. -/
def runClassification (cfg : Config) (obj : JSValue) (props : PropertiesList) :
    Outcome :=
  let doValueCheck := isRecord props
  let r := classifyAll cfg obj (entriesOf props)
  Outcome.asserted
    { passed := assertionPassedOf cfg.isNegated r
      descriptor := descriptorStr cfg.isDeep cfg.isOwn cfg.isNested doValueCheck
      found := r.found
      missing := r.missing
      mismatched := r.mismatched
      chainSubject := obj }

/-- Embedding of hasAllProperties (propertiesAssertion.ts:168-331).
getNameTypes runs first and can crash; then the validation chain: in nested
mode a non-string name throws, then the nested+own combination throws; in
non-nested mode a name of disallowed type throws, else a null/undefined
target throws. The null-target check sits in the else-if chain, so it is
skipped entirely when the nested flag is set. -/
def hasAllProperties (cfg : Config) (obj : JSValue) (props : PropertiesList) :
    Outcome :=
  match getNameTypes props with
  | none => .typeErrorCrash
  | some nameTypes =>
    if cfg.isNested then
      if nameTypes.any (fun t => t ≠ .tStr) then
        .validationError .nestedNonString
      else if cfg.isOwn then
        .validationError .nestedOwnCombined
      else
        runClassification cfg obj props
    else if nameTypes.any
        (fun t => ¬ (t = .tStr ∨ t = .tNum ∨ t = .tSym)) then
      .validationError .invalidNameType
    else if obj matches .vNull || obj matches .vUndefined then
      .validationError .nullTarget
    else
      runClassification cfg obj props

/-- Whether the invocation reached this.assert. -/
def isAsserted : Outcome → Bool
  | .asserted _ => true
  | _ => false

def outcomePassed : Outcome → Bool
  | .asserted r => r.passed
  | _ => false

def outcomeFound : Outcome → List PropName
  | .asserted r => r.found
  | _ => []

def outcomeMissing : Outcome → List PropName
  | .asserted r => r.missing
  | _ => []

def outcomeMismatched : Outcome → List (PropName × JSValue)
  | .asserted r => r.mismatched
  | _ => []

def outcomeDescriptor : Outcome → String
  | .asserted r => r.descriptor
  | _ => ""

def outcomeSubject : Outcome → JSValue
  | .asserted r => r.chainSubject
  | _ => .vUndefined

def isConfigError : Outcome → Bool
  | .validationError .nestedOwnCombined => true
  | _ => false

def isNestedTypeError : Outcome → Bool
  | .validationError .nestedNonString => true
  | _ => false

def isNullTargetError : Outcome → Bool
  | .validationError .nullTarget => true
  | _ => false

/-- Whether the caller passed a mapping (value-check request) rather than a
sequence of names. -/
def isMapping : PropertiesList → Bool
  | .arr _ => false
  | .record _ => true

/-- Whether the implementation can enumerate the expected names without the
runtime TypeError of getNameTypes: arrays always, records only when they
carry a literal "key" entry. -/
def canEnumerate : PropertiesList → Bool
  | .arr _ => true
  | .record es => isRecord (.record es)

/-- Every expected name is a string. -/
def namesAllStrings (props : PropertiesList) : Bool :=
  (namesOf props).all PropName.isStr

/-- Plain lookup, strict equality, non-negated. -/
def plainCfg : Config := ⟨false, false, false, false⟩

/-- Plain lookup, strict equality, negated. -/
def negCfg : Config := ⟨false, false, false, true⟩

/-- Nested lookup, negated. -/
def nestedNegCfg : Config := ⟨true, false, false, true⟩

/-- Nested and own flags combined, non-negated. -/
def nestedOwnCfg : Config := ⟨true, true, false, false⟩

/-- The target object {a: 1}. -/
def targetA1 : JSValue := .vObj [(.str "a", .vNum 1)]

/-- The target object {key: 1}. -/
def targetKey1 : JSValue := .vObj [(.str "key", .vNum 1)]

/- ### Helper lemmas -/

theorem str_injective : Function.Injective PropName.str := by
  intro a b h
  injection h

theorem isAsserted_validationError (e : VError) :
    isAsserted (Outcome.validationError e) = false := rfl

/-- An invocation that reached this.assert took the post-validation path. -/
theorem asserted_eq (cfg : Config) (obj : JSValue) (props : PropertiesList)
    (h : isAsserted (hasAllProperties cfg obj props) = true) :
    hasAllProperties cfg obj props = runClassification cfg obj props := by
  unfold hasAllProperties at h ⊢
  cases hg : getNameTypes props with
  | none =>
    rw [hg] at h
    exact absurd h (by simp [isAsserted])
  | some ts =>
    rw [hg] at h
    dsimp only at h ⊢
    split_ifs at h ⊢ <;> first
      | rfl
      | exact absurd h (by simp [isAsserted])

/-- An invocation that reached this.assert only sees value-check mode for
mapping inputs: a record without a "key" entry crashes first. -/
theorem asserted_isRecord (cfg : Config) (obj : JSValue) (props : PropertiesList)
    (h : isAsserted (hasAllProperties cfg obj props) = true) :
    isRecord props = isMapping props := by
  cases props with
  | arr ns => rfl
  | record es =>
    cases hr : isRecord (.record es) with
    | true => rfl
    | false =>
      unfold hasAllProperties at h
      rw [show getNameTypes (.record es) = none by simp [getNameTypes, hr]] at h
      exact absurd h (by simp [isAsserted])

/-- classifyOne on an omitted/undefined expected value is a pure presence
check. -/
theorem classifyOne_undefined (cfg : Config) (obj : JSValue) (n : PropName) :
    classifyOne cfg obj n .vUndefined
      = if hasPropFor cfg obj n then .cFound else .cMissing := rfl

theorem entriesOf_fst (props : PropertiesList) :
    (entriesOf props).map Prod.fst = namesOf props := by
  cases props <;> simp [entriesOf, namesOf, Function.comp_def]

/-- The classification loop distributes the entry names over the three
lists: their concatenation is a permutation of the entry names. -/
theorem classifyAll_perm (cfg : Config) (obj : JSValue) :
    ∀ es : List (PropName × JSValue),
      ((classifyAll cfg obj es).found ++ (classifyAll cfg obj es).missing
        ++ ((classifyAll cfg obj es).mismatched.map Prod.fst)).Perm
        (es.map Prod.fst)
  | [] => by simp [classifyAll]
  | (n, v) :: rest => by
    have ih := classifyAll_perm cfg obj rest
    simp only [classifyAll, List.map_cons]
    cases hc : classifyOne cfg obj n v with
    | cFound =>
      simp only [insertClassified]
      refine List.Perm.trans ?_ (ih.cons n)
      simp
    | cMissing =>
      simp only [insertClassified]
      have h1 : ((classifyAll cfg obj rest).found
            ++ n :: (classifyAll cfg obj rest).missing)
            ++ ((classifyAll cfg obj rest).mismatched.map Prod.fst)
          = (classifyAll cfg obj rest).found
            ++ n :: ((classifyAll cfg obj rest).missing
              ++ ((classifyAll cfg obj rest).mismatched.map Prod.fst)) := by
        simp
      rw [h1]
      refine List.Perm.trans List.perm_middle ?_
      refine List.Perm.cons n ?_
      simpa using ih
    | cMismatched a =>
      simp only [insertClassified, List.map_cons]
      exact List.Perm.trans List.perm_middle (List.Perm.cons n ih)

/-- Presence-only entries (all expected values undefined) never produce a
mismatch. -/
theorem classifyAll_mismatched_undefined (cfg : Config) (obj : JSValue) :
    ∀ es : List (PropName × JSValue),
      (∀ e ∈ es, e.2 = JSValue.vUndefined) →
      (classifyAll cfg obj es).mismatched = []
  | [], _ => rfl
  | (n, v) :: rest, h => by
    have hv : v = JSValue.vUndefined := h (n, v) (List.mem_cons_self _ _)
    have ih := classifyAll_mismatched_undefined cfg obj rest
      (fun e he => h e (List.mem_cons_of_mem _ he))
    simp only [classifyAll, hv, classifyOne_undefined]
    cases hp : hasPropFor cfg obj n <;> simp [insertClassified, ih]

/-- Names in the mismatched list come from the entry names. -/
theorem classifyAll_mismatched_sub (cfg : Config) (obj : JSValue)
    (es : List (PropName × JSValue)) (x : PropName)
    (hx : x ∈ (classifyAll cfg obj es).mismatched.map Prod.fst) :
    x ∈ es.map Prod.fst := by
  refine (classifyAll_perm cfg obj es).mem_iff.mp ?_
  exact List.mem_append_right _ hx

/-- A present entry whose expected value is undefined lands in found. -/
theorem classifyAll_found_of_undefined (cfg : Config) (obj : JSValue) :
    ∀ es : List (PropName × JSValue), ∀ n : PropName,
      (n, JSValue.vUndefined) ∈ es →
      hasPropFor cfg obj n = true →
      n ∈ (classifyAll cfg obj es).found
  | (m, w) :: rest, n, hmem, hp => by
    rcases List.mem_cons.mp hmem with hhead | htail
    · injection hhead with h1 h2
      subst h1
      subst h2
      simp only [classifyAll, classifyOne_undefined, hp, if_true]
      simp [insertClassified]
    · have ih := classifyAll_found_of_undefined cfg obj rest n htail hp
      simp only [classifyAll]
      cases classifyOne cfg obj m w <;>
        simp [insertClassified, ih]

/-- With unique entry names, an entry whose expected value is undefined is
never recorded as mismatched. -/
theorem classifyAll_undefined_not_mismatched (cfg : Config) (obj : JSValue) :
    ∀ es : List (PropName × JSValue),
      (es.map Prod.fst).Nodup →
      ∀ n : PropName, (n, JSValue.vUndefined) ∈ es →
      n ∉ (classifyAll cfg obj es).mismatched.map Prod.fst
  | (m, w) :: rest, hnd, n, hmem => by
    rw [List.map_cons, List.nodup_cons] at hnd
    obtain ⟨hm_notin, hnd_rest⟩ := hnd
    rcases List.mem_cons.mp hmem with hhead | htail
    · injection hhead with h1 h2
      subst h1
      subst h2
      simp only [classifyAll, classifyOne_undefined]
      intro hin
      have hsub : n ∈ (classifyAll cfg obj rest).mismatched.map Prod.fst := by
        cases hp : hasPropFor cfg obj n <;>
          simpa [insertClassified, hp] using hin
      exact hm_notin (classifyAll_mismatched_sub cfg obj rest n hsub)
    · have ih := classifyAll_undefined_not_mismatched cfg obj rest hnd_rest n htail
      have hmemk : n ∈ rest.map Prod.fst := by
        have hk := List.mem_map_of_mem Prod.fst htail
        simpa using hk
      have hn_ne : n ≠ m := fun he => hm_notin (he ▸ hmemk)
      simp only [classifyAll]
      cases classifyOne cfg obj m w <;>
        simp [insertClassified, ih, hn_ne]

/- ### Claim theorems -/

/-- Claim C1: the claim says that for target {a: 1} and expected mapping
{a: 2} (value-check mode, plain lookup, strict equality, non-negated) the
assertion fails via the host assert primitive with mismatched recording
a -> 1. The code instead crashes with a runtime TypeError: isRecord tests
for a literal "key" property, so the mapping {a: 2} is routed into the
array branch of getNameTypes and `.map` is called on a plain object. This
theorem evaluates the embedding at exactly the claimed input. -/
theorem claim_C1_value_check_crashes :
    hasAllProperties plainCfg targetA1 (.record [("a", .vNum 2)])
      = .typeErrorCrash := rfl

/-- Claim C2, counterexample: for target {key: 1} and expected mapping
{key: 2}, negated, the invocation passes even though the mismatched set is
nonempty (key -> 1), refuting "negated passes iff found and mismatched are
both empty". -/
theorem claim_C2_counterexample :
    outcomePassed
        (hasAllProperties negCfg targetKey1 (.record [("key", .vNum 2)]))
      = true ∧
    outcomeMismatched
        (hasAllProperties negCfg targetKey1 (.record [("key", .vNum 2)]))
      ≠ [] := by
  refine ⟨rfl, ?_⟩
  intro h
  rw [show outcomeMismatched
        (hasAllProperties negCfg targetKey1 (.record [("key", .vNum 2)]))
      = [(PropName.str "key", JSValue.vNum 1)] from rfl] at h
  exact List.cons_ne_nil _ _ h

/-- Claim C2, amended: a negated invocation that reaches the assert step
passes if and only if the found set is empty; the mismatched set plays no
role in the negated pass condition. -/
theorem claim_C2_negated_passes_iff (cfg : Config) (obj : JSValue)
    (props : PropertiesList) (hneg : cfg.isNegated = true)
    (h : isAsserted (hasAllProperties cfg obj props) = true) :
    outcomePassed (hasAllProperties cfg obj props) = true ↔
      outcomeFound (hasAllProperties cfg obj props) = [] := by
  rw [asserted_eq cfg obj props h]
  simp [runClassification, outcomePassed, outcomeFound, assertionPassedOf,
    hneg, List.isEmpty_iff]

/-- Claim C2, witness: a concrete negated invocation (target {key: 1},
forbidden mapping {key: 2}) instantiating the amended theorem. -/
theorem claim_C2_witness :
    outcomePassed
        (hasAllProperties negCfg targetKey1 (.record [("key", .vNum 2)]))
      = true ↔
    outcomeFound
        (hasAllProperties negCfg targetKey1 (.record [("key", .vNum 2)]))
      = [] :=
  claim_C2_negated_passes_iff negCfg targetKey1 (.record [("key", .vNum 2)])
    rfl rfl

/-- Claim C3: the claim says a null target fails with the null-target error
in every lookup mode, including nested-path. In the code the null-target
check sits in an else-if chain that is skipped whenever the nested flag is
set, so in nested mode a null target proceeds to classification; negated,
the invocation even passes outright. This theorem evaluates the embedding
at the failing input (nested, negated, target null, expected ['a']). -/
theorem claim_C3_nested_null_not_rejected :
    outcomePassed (hasAllProperties nestedNegCfg .vNull (.arr [.str "a"]))
      = true ∧
    isNullTargetError (hasAllProperties nestedNegCfg .vNull (.arr [.str "a"]))
      = false := ⟨rfl, rfl⟩

/-- Claim C5: the claim (and the source's own doc comment) says the
chained-assertion subject (the 'object' flag) becomes the evaluated
property values after a non-throwing invocation. The implementation never
writes the 'object' flag, so the subject stays the original target: here
the invocation on target {a: 1} with expected ['a'] passes and the chain
subject is still {a: 1}. -/
theorem claim_C5_subject_unchanged :
    outcomePassed (hasAllProperties plainCfg targetA1 (.arr [.str "a"]))
      = true ∧
    outcomeSubject (hasAllProperties plainCfg targetA1 (.arr [.str "a"]))
      = targetA1 := ⟨rfl, rfl⟩

/-- When the expected names can be enumerated and are all strings, every
computed name type is the string type. -/
theorem nameTypes_all_str (props : PropertiesList)
    (h3 : canEnumerate props = true) (h4 : namesAllStrings props = true) :
    ∃ ts, getNameTypes props = some ts ∧
      (ts.any fun t => t ≠ NameType.tStr) = false := by
  cases props with
  | arr ns =>
    refine ⟨(ns.map typeofName).dedup, rfl, ?_⟩
    rw [List.any_eq_false]
    intro t ht
    rcases List.mem_map.mp (List.mem_dedup.mp ht) with ⟨n, hn, hty⟩
    have hstr : PropName.isStr n = true := by
      have := List.all_eq_true.mp h4 n hn
      simpa using this
    cases n with
    | str s => simp [← hty, typeofName]
    | num k => exact absurd hstr (by simp [PropName.isStr])
    | sym s => exact absurd hstr (by simp [PropName.isStr])
  | record es =>
    have hr : isRecord (.record es) = true := h3
    refine ⟨((es.map (fun e => PropName.str e.fst)).map typeofName).dedup,
      by simp [getNameTypes, hr], ?_⟩
    rw [List.any_eq_false]
    intro t ht
    rcases List.mem_map.mp (List.mem_dedup.mp ht) with ⟨n, hn, hty⟩
    rcases List.mem_map.mp hn with ⟨e, _, hne⟩
    simp [← hty, ← hne, typeofName]

/-- Claim C4, counterexample: with the nested and own flags combined but a
numeric expected name ([42]), the code raises the nested-string type error,
not the configuration error, refuting "raises a configuration error
regardless of the types of the expected names". -/
theorem claim_C4_counterexample :
    isConfigError (hasAllProperties nestedOwnCfg targetA1 (.arr [.num 42]))
      = false ∧
    isNestedTypeError (hasAllProperties nestedOwnCfg targetA1 (.arr [.num 42]))
      = true := ⟨rfl, rfl⟩

/-- Claim C4, amended: combining the nested and own flags raises the
configuration error regardless of the target, provided the expected-names
input can be enumerated without the getNameTypes TypeError (an array, or a
record with a literal "key" entry) and all expected names are strings;
otherwise the nested string type error (or the TypeError crash) fires
first. -/
theorem claim_C4_nested_own_config_error (cfg : Config) (obj : JSValue)
    (props : PropertiesList)
    (h1 : cfg.isNested = true) (h2 : cfg.isOwn = true)
    (h3 : canEnumerate props = true) (h4 : namesAllStrings props = true) :
    hasAllProperties cfg obj props
      = .validationError .nestedOwnCombined := by
  obtain ⟨ts, hts, hany⟩ := nameTypes_all_str props h3 h4
  unfold hasAllProperties
  rw [hts]
  simp [h1, h2, hany]
  rw [List.any_eq_false] at hany
  intro x hx
  have hx2 := hany x hx
  simpa using hx2

/-- Claim C4, witness: nested+own on target {a: 1} with expected ['x']
raises the configuration error. -/
theorem claim_C4_witness :
    hasAllProperties nestedOwnCfg targetA1 (.arr [.str "x"])
      = .validationError .nestedOwnCombined :=
  claim_C4_nested_own_config_error nestedOwnCfg targetA1 (.arr [.str "x"])
    rfl rfl rfl rfl

/-- Claim C6: for every invocation that completes classification, the
concatenation of found, missing and the mismatched names is a permutation
of the expected-name collection, and when the expected names are distinct
(as record keys always are) the concatenation is duplicate-free — so each
expected name lands in exactly one of the three sets, exactly once, with no
omission. -/
theorem claim_C6_partition (cfg : Config) (obj : JSValue)
    (props : PropertiesList)
    (h : isAsserted (hasAllProperties cfg obj props) = true) :
    (outcomeFound (hasAllProperties cfg obj props)
        ++ outcomeMissing (hasAllProperties cfg obj props)
        ++ (outcomeMismatched (hasAllProperties cfg obj props)).map Prod.fst).Perm
      (namesOf props) ∧
    ((namesOf props).Nodup →
      (outcomeFound (hasAllProperties cfg obj props)
        ++ outcomeMissing (hasAllProperties cfg obj props)
        ++ (outcomeMismatched (hasAllProperties cfg obj props)).map Prod.fst).Nodup) := by
  rw [asserted_eq cfg obj props h]
  have hperm := classifyAll_perm cfg obj (entriesOf props)
  rw [entriesOf_fst] at hperm
  simp only [runClassification, outcomeFound, outcomeMissing, outcomeMismatched]
  exact ⟨hperm, fun hnd => hperm.symm.nodup hnd⟩

/-- Claim C6, witness: the partition property at target {key: 1, b: 5} and
expected mapping {key: 1, b: undefined}. -/
theorem claim_C6_witness :
    (outcomeFound (hasAllProperties plainCfg
          (.vObj [(.str "key", .vNum 1), (.str "b", .vNum 5)])
          (.record [("key", .vNum 1), ("b", .vUndefined)]))
        ++ outcomeMissing (hasAllProperties plainCfg
          (.vObj [(.str "key", .vNum 1), (.str "b", .vNum 5)])
          (.record [("key", .vNum 1), ("b", .vUndefined)]))
        ++ (outcomeMismatched (hasAllProperties plainCfg
          (.vObj [(.str "key", .vNum 1), (.str "b", .vNum 5)])
          (.record [("key", .vNum 1), ("b", .vUndefined)]))).map Prod.fst).Perm
      (namesOf (.record [("key", .vNum 1), ("b", .vUndefined)])) ∧
    ((namesOf (PropertiesList.record [("key", .vNum 1), ("b", .vUndefined)])).Nodup →
      (outcomeFound (hasAllProperties plainCfg
          (.vObj [(.str "key", .vNum 1), (.str "b", .vNum 5)])
          (.record [("key", .vNum 1), ("b", .vUndefined)]))
        ++ outcomeMissing (hasAllProperties plainCfg
          (.vObj [(.str "key", .vNum 1), (.str "b", .vNum 5)])
          (.record [("key", .vNum 1), ("b", .vUndefined)]))
        ++ (outcomeMismatched (hasAllProperties plainCfg
          (.vObj [(.str "key", .vNum 1), (.str "b", .vNum 5)])
          (.record [("key", .vNum 1), ("b", .vUndefined)]))).map Prod.fst).Nodup) :=
  claim_C6_partition plainCfg
    (.vObj [(.str "key", .vNum 1), (.str "b", .vNum 5)])
    (.record [("key", .vNum 1), ("b", .vUndefined)]) rfl

/-- Claim C7: for every invocation that builds an assertion message, the
descriptor is "deep " when deep mode is active, then "own " when own-only
is active, then "nested " when nested is active, ending in
"properties/values" exactly when the caller passed a mapping and
"properties" when the caller passed a sequence. -/
theorem claim_C7_descriptor (cfg : Config) (obj : JSValue)
    (props : PropertiesList)
    (h : isAsserted (hasAllProperties cfg obj props) = true) :
    outcomeDescriptor (hasAllProperties cfg obj props)
      = (if cfg.isDeep then "deep " else "")
        ++ (if cfg.isOwn then "own " else "")
        ++ (if cfg.isNested then "nested " else "")
        ++ (if isMapping props then "properties/values" else "properties") := by
  have hrec := asserted_isRecord cfg obj props h
  rw [asserted_eq cfg obj props h]
  simp [runClassification, outcomeDescriptor, descriptorStr, hrec]

/-- Claim C7, witness: the descriptor of a deep, negated, value-check
invocation on target {key: 1}. -/
theorem claim_C7_witness :
    outcomeDescriptor (hasAllProperties ⟨false, false, true, true⟩ targetKey1
        (.record [("key", .vNum 2)]))
      = (if true then "deep " else "")
        ++ (if false then "own " else "")
        ++ (if false then "nested " else "")
        ++ (if isMapping (.record [("key", JSValue.vNum 2)]) then
            "properties/values" else "properties") :=
  claim_C7_descriptor ⟨false, false, true, true⟩ targetKey1
    (.record [("key", .vNum 2)]) rfl

/-- Claim C8: in nested mode, an expected-names input containing at least
one non-string name always raises the nested string type error, before any
classification runs, regardless of the target. -/
theorem claim_C8_nested_non_string (cfg : Config) (obj : JSValue)
    (props : PropertiesList) (h1 : cfg.isNested = true)
    (h2 : ∃ n ∈ namesOf props, PropName.isStr n = false) :
    hasAllProperties cfg obj props
      = .validationError .nestedNonString := by
  obtain ⟨n, hn, hns⟩ := h2
  cases props with
  | record es =>
    rcases List.mem_map.mp hn with ⟨e, _, hne⟩
    rw [← hne] at hns
    exact absurd hns (by simp [PropName.isStr])
  | arr ns =>
    have hty : typeofName n ≠ NameType.tStr := by
      cases n with
      | str s => exact absurd hns (by simp [PropName.isStr])
      | num k => simp [typeofName]
      | sym s => simp [typeofName]
    have hany : (((ns.map typeofName).dedup).any
        fun t => t ≠ NameType.tStr) = true := by
      rw [List.any_eq_true]
      exact ⟨typeofName n,
        List.mem_dedup.mpr (List.mem_map_of_mem typeofName hn),
        by simpa using hty⟩
    unfold hasAllProperties
    simp [getNameTypes, h1, hany]
    intro hall
    exact absurd (hall n (by simpa [namesOf] using hn)) hty

/-- Claim C8, witness: nested mode with expected names ['a', 0] on target
{a: 1} raises the nested string type error. -/
theorem claim_C8_witness :
    hasAllProperties ⟨true, false, false, false⟩ targetA1
        (.arr [.str "a", .num 0])
      = .validationError .nestedNonString :=
  claim_C8_nested_non_string ⟨true, false, false, false⟩ targetA1
    (.arr [.str "a", .num 0]) rfl
    ⟨.num 0, by simp [namesOf], rfl⟩

/-- Claim C9: an invocation in presence-only mode (expected properties
given as a sequence of names) never records a mismatch: the mismatched set
of the outcome is always empty, so every expected name is classified as
found or missing. -/
theorem claim_C9_presence_no_mismatch (cfg : Config) (obj : JSValue)
    (ns : List PropName) :
    outcomeMismatched (hasAllProperties cfg obj (.arr ns)) = [] := by
  have hmm : (classifyAll cfg obj (entriesOf (.arr ns))).mismatched = [] := by
    refine classifyAll_mismatched_undefined cfg obj _ ?_
    intro e he
    rcases List.mem_map.mp he with ⟨n, _, hne⟩
    rw [← hne]
  unfold hasAllProperties
  dsimp only [getNameTypes]
  split_ifs <;>
    simp [outcomeMismatched, runClassification, hmm]

/-- Claim C10: in value-check mode, an expected entry whose expected value
is undefined acts as a pure presence check: with the record's keys distinct
(as JavaScript object keys always are), the entry is never recorded as
mismatched, and whenever the property is present (under the active lookup
mode) its name is recorded as found — no value comparison happens even if
the actual value is not undefined. -/
theorem claim_C10_undefined_presence_only (cfg : Config) (obj : JSValue)
    (es : List (String × JSValue)) (n : String)
    (hnd : (es.map Prod.fst).Nodup)
    (hmem : (n, JSValue.vUndefined) ∈ es)
    (h : isAsserted (hasAllProperties cfg obj (.record es)) = true) :
    PropName.str n ∉
      (outcomeMismatched (hasAllProperties cfg obj (.record es))).map Prod.fst ∧
    (hasPropFor cfg obj (.str n) = true →
      PropName.str n ∈ outcomeFound (hasAllProperties cfg obj (.record es))) := by
  rw [asserted_eq cfg obj (.record es) h]
  simp only [runClassification, outcomeMismatched, outcomeFound]
  have hmem2 : (PropName.str n, JSValue.vUndefined)
      ∈ entriesOf (.record es) := by
    have := List.mem_map_of_mem (fun e => (PropName.str e.fst, e.snd)) hmem
    simpa [entriesOf] using this
  have hnd2 : ((entriesOf (.record es)).map Prod.fst).Nodup := by
    rw [entriesOf_fst]
    have h2 := hnd.map str_injective
    rw [List.map_map] at h2
    simpa [namesOf, Function.comp_def] using h2
  constructor
  · exact classifyAll_undefined_not_mismatched cfg obj _ hnd2 _ hmem2
  · intro hp
    exact classifyAll_found_of_undefined cfg obj _ _ hmem2 hp

/-- Claim C10, witness: target {key: 1, b: 5} with expected mapping
{key: 1, b: undefined}; the entry b -> undefined is present with actual
value 5, is not mismatched, and b is recorded as found. -/
theorem claim_C10_witness :
    PropName.str "b" ∉
      (outcomeMismatched (hasAllProperties plainCfg
        (.vObj [(.str "key", .vNum 1), (.str "b", .vNum 5)])
        (.record [("key", .vNum 1), ("b", .vUndefined)]))).map Prod.fst ∧
    (hasPropFor plainCfg
        (.vObj [(.str "key", .vNum 1), (.str "b", .vNum 5)])
        (.str "b") = true →
      PropName.str "b" ∈ outcomeFound (hasAllProperties plainCfg
        (.vObj [(.str "key", .vNum 1), (.str "b", .vNum 5)])
        (.record [("key", .vNum 1), ("b", .vUndefined)]))) :=
  claim_C10_undefined_presence_only plainCfg
    (.vObj [(.str "key", .vNum 1), (.str "b", .vNum 5)])
    [("key", .vNum 1), ("b", .vUndefined)] "b"
    (by simp) (by simp) rfl

end HaveAllProps
